import Mathlib

/-!
Verification of the `morgue_librarian` repository (MorgueLibrarian package).

The development shallowly embeds the Python sources:
  * `winning_parser.py`  — `WinningParser.parse_one_morgue`, `WinningParser.strip_html`,
    and the winners-file line written in `WinningParser.parse`;
  * `morgue_spider.py`   — `MorgueSpider.spider` / `MorgueSpider._spider`;
  * `search_winners.py`  — `SearchWinners.read_winning_line`;
  * `winning_catalog.py` — `WinningCatalog.read_winning_line`.

Python strings are embedded as `List Char` (named `Str` here); the Python string
methods used by the sources (`split`, `strip`, `lower`, `startswith`, `endswith`,
`in`, `find`, `replace`, `join`, slicing, `int(...)`) are given as executable
functions below, each modelling the corresponding Python semantics.  Python
exceptions are modelled with `Option`/`Except`: a `none`/`error` result stands
for the exception propagating out of the modelled code.
-/

set_option maxRecDepth 100000

/-- Python strings, embedded as lists of characters. -/
abbrev Str := List Char

/-- Python `s.startswith(p)`: `strStartsWith s p` is `true` iff `p` is an initial
segment of `s`. -/
def strStartsWith : Str → Str → Bool
  | _, [] => true
  | [], _ :: _ => false
  | c :: s, d :: p => c == d && strStartsWith s p

/-- Python `s.endswith(p)`. -/
def strEndsWith (s p : Str) : Bool :=
  strStartsWith s.reverse p.reverse

/-- Python `p in s`: substring containment (`pyIn p s` means `p` occurs in `s`). -/
def pyIn (p : Str) : Str → Bool
  | [] => strStartsWith [] p
  | c :: t => strStartsWith (c :: t) p || pyIn p t

/-- Helper for `strFind`: index of the first occurrence of `p`, counting from `i`. -/
def strFindAux (p : Str) : Str → Nat → Option Nat
  | [], i => if strStartsWith [] p then some i else none
  | c :: t, i => if strStartsWith (c :: t) p then some i else strFindAux p t (i + 1)

/-- Python `s.find(p)`: index of the first occurrence of `p` in `s`, `-1` if absent. -/
def strFind (s p : Str) : Int :=
  match strFindAux p s 0 with
  | some i => (i : Int)
  | none => -1

/-- Python `s.strip()`: remove leading and trailing whitespace. -/
def pyStrip (s : Str) : Str :=
  ((s.dropWhile (·.isWhitespace)).reverse.dropWhile (·.isWhitespace)).reverse

/-- Python `s.lower()` (ASCII case folding, which covers all inputs here). -/
def strToLower (s : Str) : Str :=
  s.map Char.toLower

/-- Python `s.split(sep)` for a one-character separator: keeps empty pieces and
always returns at least one piece. -/
def splitChar (sep : Char) : Str → List Str
  | [] => [[]]
  | c :: t =>
    if c == sep then [] :: splitChar sep t
    else
      match splitChar sep t with
      | [] => [[c]]
      | h :: r => (c :: h) :: r

/-- Python `s.split(sep)[0]` for a non-empty separator `sep`: the text before the
first occurrence of `sep` (all of `s` when `sep` does not occur). -/
def takeUntilSub (sep : Str) : Str → Str
  | [] => []
  | c :: t => if strStartsWith (c :: t) sep then [] else c :: takeUntilSub sep t

/-- The remainder of `s` after the first occurrence of a non-empty `sep`
(`none` when `sep` does not occur). -/
def afterFirstSub (sep : Str) : Str → Option Str
  | [] => none
  | c :: t =>
    if strStartsWith (c :: t) sep then some ((c :: t).drop sep.length)
    else afterFirstSub sep t

/-- Python `s.split(sep)[1]` for a non-empty separator: the text between the first
and second occurrences of `sep`; `none` models the `IndexError` raised when `sep`
does not occur in `s`. -/
def splitIdx1 (sep : Str) (s : Str) : Option Str :=
  (afterFirstSub sep s).map (takeUntilSub sep)

/-- Helper for `pySplitWs`: `acc` is the current token, reversed. -/
def wsSplitAux : Str → Str → List Str
  | [], acc => if acc.isEmpty then [] else [acc.reverse]
  | c :: t, acc =>
    if c.isWhitespace then
      if acc.isEmpty then wsSplitAux t [] else acc.reverse :: wsSplitAux t []
    else wsSplitAux t (c :: acc)

/-- Python `s.split()` (no argument): split on whitespace runs, dropping empty pieces. -/
def pySplitWs (s : Str) : List Str :=
  wsSplitAux s []

/-- Fuel-driven helper for `replaceAll`; the fuel always suffices at the call site. -/
def replaceAllAux (pat rep : Str) : Nat → Str → Str
  | 0, s => s
  | fuel + 1, s =>
    if (!pat.isEmpty) && strStartsWith s pat then
      rep ++ replaceAllAux pat rep fuel (s.drop pat.length)
    else
      match s with
      | [] => []
      | c :: t => c :: replaceAllAux pat rep fuel t

/-- Python `s.replace(pat, rep)` for a non-empty `pat`. -/
def replaceAll (pat rep s : Str) : Str :=
  replaceAllAux pat rep (s.length + 1) s

/-- Python `sep.join(xs)` with `sep = " "`. -/
def joinSpace (xs : List Str) : Str :=
  List.intercalate [' '] xs

/-- Decimal digit value of a character, `none` for non-digits. -/
def digitVal (c : Char) : Option Nat :=
  if c.isDigit then some (c.toNat - '0'.toNat) else none

/-- Accumulating decimal parser over a digit string. -/
def parseDigitsAux : Str → Nat → Option Nat
  | [], acc => some acc
  | c :: t, acc =>
    match digitVal c with
    | none => none
    | some d => parseDigitsAux t (10 * acc + d)

/-- Parse a non-empty all-digit string as a natural number. -/
def parseDigits (s : Str) : Option Nat :=
  if s.isEmpty then none else parseDigitsAux s 0

/-- Python `int(s)`: strip whitespace, optional sign, then decimal digits;
`none` models the `ValueError` raised on any other shape. -/
def pyInt (s0 : Str) : Option Int :=
  match pyStrip s0 with
  | [] => none
  | c :: t =>
    if c = '-' then (parseDigits t).map (fun n => -(n : Int))
    else if c = '+' then (parseDigits t).map (fun n => (n : Int))
    else (parseDigits (c :: t)).map (fun n => (n : Int))

/-- Fuel-driven decimal printer; the fuel always suffices at the call site. -/
def natToStrAux : Nat → Nat → Str
  | 0, _ => []
  | fuel + 1, n =>
    if n = 0 then [] else natToStrAux fuel (n / 10) ++ [Nat.digitChar (n % 10)]

/-- Python `str(n)` for a natural number: standard decimal notation. -/
def natToStr (n : Nat) : Str :=
  if n = 0 then ['0'] else natToStrAux (n + 1) n

/-- Python `str(i)` for an integer. -/
def intToStr (i : Int) : Str :=
  if i < 0 then '-' :: natToStr i.natAbs else natToStr i.toNat

/-- The fixed header phrase `" Dungeon Crawl Stone Soup version "` of
`winning_parser.py` (used both by `strip_html` and by the first-line check). -/
def versionHeader : Str := " Dungeon Crawl Stone Soup version ".data

/-- The fixed victory phrase `"Escaped with the Orb"` of `parse_one_morgue`. -/
def victoryPhrase : Str := "Escaped with the Orb".data

/-- Embeds `WinningParser.strip_html` (winning_parser.py, lines 251-267):
if the text contains an HTML document marker, find the header phrase; when its
index `i` satisfies `i < 21` (including `-1` = not found) return the empty
string, otherwise return `txt[i:].split('</pre>')[0]`. -/
def strip_html (txt : Str) : Str :=
  if (pyIn "<!DOCTYPE html>".data txt || pyIn "<html>".data txt) = true then
    let i := strFind txt versionHeader
    if i < 21 then [] else takeUntilSub "</pre>".data (txt.drop i.toNat)
  else txt

example : strip_html "abc".data = "abc".data := by decide
example : strip_html "<html>x Dungeon Crawl Stone Soup version 1".data = [] := by decide
example : strFind "<html> Dungeon Crawl Stone Soup version 0.23</pre>".data versionHeader = 6 := by
  decide
example : pyInt "  -42 ".data = some (-42) := by decide
example : pyInt "three".data = none := by decide
example : splitChar ',' "a,b,".data = ["a".data, "b".data, [] ] := by decide
example : pySplitWs "  a  bc ".data = ["a".data, "bc".data] := by decide
example : splitIdx1 "-- ".data "x-- y-- z".data = some "y".data := by decide
example : replaceAll " (penitent)".data [] "was of okawaru (penitent) x".data
    = "was of okawaru x".data := by decide

/-- Association-list lookup modelling a Python dict lookup (`d[x]` guarded by `x in d`). -/
def listAssoc : List (Str × Str) → Str → Option Str
  | [], _ => none
  | (k, v) :: t, x => if k = x then some v else listAssoc t x

/-- Modelled from the spec: the species lookup table `SPECIES` of the missing
`crawl_data` module ("full-name ↔ 2-letter-code mappings", §3).  The spec's worked
example (§8) forces the entry mapping `"minotaur"` to `"Mi"`; the source comments
name `(Octopode Earth Elementalist)` as the other worked shape.  Keys are the
lower-cased full species names, values the two-letter codes. -/
def SPECIES : List (Str × Str) :=
  [("minotaur".data, "Mi".data), ("octopode".data, "Op".data)]

/-- Modelled from the spec: the species abbreviation table `SPECIES_ABR` of the
missing `crawl_data` module; contents unspecified by the spec, left empty. -/
def SPECIES_ABR : List (Str × Str) := []

/-- Modelled from the spec: the background lookup table `BACKGROUNDS` of the missing
`crawl_data` module.  The spec's worked example (§8) forces the entry mapping
`"berserker"` to `"Be"`. -/
def BACKGROUNDS : List (Str × Str) :=
  [("berserker".data, "Be".data), ("earth elementalist".data, "EE".data)]

/-- Modelled from the spec: the background abbreviation table `BACKGROUNDS_ABR` of
the missing `crawl_data` module; contents unspecified by the spec, left empty. -/
def BACKGROUNDS_ABR : List (Str × Str) := []

/-- Modelled from the spec: the deity lookup table `GODS` of the missing
`crawl_data` module.  The spec's worked example (§8) requires that the lookup leave
`"okawaru"` unchanged, so the modelled table has no entry for it; further contents
are unspecified and left empty. -/
def GODS : List (Str × Str) := []

/-- Modelled from the spec: the deity abbreviation table `GODS_ABR` of the missing
`crawl_data` module; contents unspecified by the spec, left empty. -/
def GODS_ABR : List (Str × Str) := []

/-- The `if x in T1: x = T1[x] elif x in T2: x = T2[x]` resolution step used for
backgrounds, species and gods in `parse_one_morgue` (lines 213-226). -/
def tableLookup (t1 t2 : List (Str × Str)) (x : Str) : Str :=
  match listAssoc t1 x with
  | some v => v
  | none =>
    match listAssoc t2 x with
    | some v => v
    | none => x

/-- The outcome of one `parse_one_morgue` call, as observed by `WinningParser.parse`
(winning_parser.py, lines 106-117): a winning record, the `Loser` exception, the
`ParserError` exception, or any other Python exception (recorded via the
catch-all `UnknownError` branch of `parse`). -/
inductive Outcome
  | winner (species background god : Str) (runes : Int) (version : Str)
  | loser (msg : Str)
  | parserError (msg : Str)
  | unknownError (msg : Str)
deriving DecidableEq

/-- Line test of the blank-line branch of the scan loop (line 184):
`not len(line.strip())`. -/
def isBlankLine (l : Str) : Bool := (pyStrip l).isEmpty

/-- Line test of the rune-count branch of the scan loop (line 186):
`line.strip().startswith('... and ')`. -/
def isRuneLine (l : Str) : Bool := strStartsWith (pyStrip l) "... and ".data

/-- Line test of the deity branch of the scan loop (line 188):
`line.strip().startswith('Was ') and line.strip().endswith('.')`. -/
def isGodLine (l : Str) : Bool :=
  strStartsWith (pyStrip l) "Was ".data && strEndsWith (pyStrip l) ['.']

/-- Line test of the build-description branch of the scan loop (line 190):
`('the' in line) and ('(' in line) and (')' in line) and ('Turns:' in line)
and ('Time:' in line)`. -/
def isBuildLine (l : Str) : Bool :=
  pyIn "the".data l && pyIn ['('] l && pyIn [')'] l &&
    pyIn "Turns:".data l && pyIn "Time:".data l

/-- The rune-count token of a rune line (line 187):
`line.split('... and ')[1].split(' runes')[0]`; `none` is the `IndexError` case,
impossible when `isRuneLine` holds. -/
def runeToken (line : Str) : Option Str :=
  (splitIdx1 "... and ".data line).map (takeUntilSub " runes".data)

/-- The deity token of a deity line (line 189):
`line.lower().split('.')[0].replace(' (penitent)', '').split(' ')[-1]`. -/
def godOf (line : Str) : Str :=
  (splitChar ' ' (replaceAll " (penitent)".data []
      (takeUntilSub ['.'] (strToLower line)))).getLastD []

/-- The Python `ValueError` message raised by `int(t)` on a non-numeric token. -/
def intErrMsg (t : Str) : Str :=
  "invalid literal for int() with base 10: '".data ++ t ++ "'".data

/-- Embeds the field-scan loop of `parse_one_morgue` (lines 180-192) over
`lines[1:]`, threading the `god` and `num_runes` accumulators (initially `''` and
`-1`).  A build-description line ends the scan immediately (`break`).  An
`Except.error` result is a Python exception escaping the loop (the `ValueError`
of `int`, or the impossible `IndexError`). -/
def fieldScan : List Str → Str → Int → Except Str (Str × Int × Str)
  | [], god, runes => Except.ok (god, runes, [])
  | line :: rest, god, runes =>
    if isBlankLine line then fieldScan rest god runes
    else if isRuneLine line then
      match runeToken line with
      | none => Except.error "list index out of range".data
      | some t =>
        match pyInt t with
        | none => Except.error (intErrMsg t)
        | some n => fieldScan rest god n
    else if isGodLine line then fieldScan rest (godOf line) runes
    else if isBuildLine line then Except.ok (god, runes, line)
    else fieldScan rest god runes

/-- Embeds the version extraction of `parse_one_morgue` (lines 177-178):
`lines[0].split(' version ')[1].split('-')[0].split()[0].split('.')`, then join
the first two components with `'.'`; `none` is an `IndexError` on a missing
component. -/
def extractVersion (line0 : Str) : Option Str := do
  let a ← splitIdx1 " version ".data line0
  let b := (splitChar '-' a).headD a
  let c ← (pySplitWs b).head?
  let parts := splitChar '.' c
  let major ← parts.head?
  let minor ← parts.tail.head?
  return major ++ ['.'] ++ minor

/-- Embeds the build-resolution block of `parse_one_morgue` (lines 197-228): the
`try` body computing `species`/`background` from the parenthesized build token;
`none` is any exception inside the `try` (an `IndexError` on `b[0]`/`b[1]` or the
`NameError` on the never-assigned `species`/`background`), which the `except`
turns into `ParserError('Build info: ...')`. -/
def resolveSB (build : Str) : Option (Str × Str) :=
  if (!pyIn [' '] build) && build.length == 4 then
    some (build.take 2, build.drop 2)
  else
    let b := pySplitWs build
    match b.head? with
    | none => none
    | some b0 =>
      match listAssoc SPECIES b0 with
      | some s => some (s, joinSpace (b.drop 1))
      | none =>
        match b.tail.head? with
        | none => none
        | some b1 =>
          match listAssoc SPECIES (b0 ++ [' '] ++ b1) with
          | some s => some (s, joinSpace (b.drop 2))
          | none => none

/-- Embeds lines 197-233 of `parse_one_morgue`: extract the build token from the
build-description line, resolve species/background/god through the lookup tables,
and perform the final two-character check before returning the winning record. -/
def resolveStage (theLine god : Str) (runes : Int) (version : Str) : Outcome :=
  match (splitChar '(' theLine).tail.head? with
  | none => Outcome.unknownError "name 'build' is not defined".data
  | some afterParen =>
    let build := strToLower ((splitChar ')' afterParen).headD afterParen)
    match resolveSB build with
    | none => Outcome.parserError ("Build info: ".data ++ build)
    | some (sp0, bg0) =>
      let background := tableLookup BACKGROUNDS BACKGROUNDS_ABR bg0
      let species := tableLookup SPECIES SPECIES_ABR sp0
      let god2 := tableLookup GODS GODS_ABR god
      if species.length ≠ 2 ∨ background.length ≠ 2 then
        Outcome.parserError ("Build info: ".data ++ build)
      else Outcome.winner species background god2 runes version

/-- Embeds `WinningParser.parse_one_morgue` (winning_parser.py, lines 153-233),
with `save_winners = False` (the constructor default, under which the broken
`_save_winners` body is never entered). -/
def parse_one_morgue (txt0 : Str) : Outcome :=
  let txt := strip_html txt0
  let lines := (splitChar '\n' txt).take 20
  if lines.length < 13 then Outcome.parserError "Invalid file, not long enough".data
  else if strStartsWith (lines.headD []) versionHeader = false then
    Outcome.parserError "Invalid file, starting line not found".data
  else if pyIn victoryPhrase txt = false then
    Outcome.loser "This is not a winning run.".data
  else
    match extractVersion (lines.headD []) with
    | none => Outcome.unknownError "list index out of range".data
    | some version =>
      match fieldScan (lines.drop 1) [] (-1) with
      | Except.error msg => Outcome.unknownError msg
      | Except.ok (god, runes, theLine) =>
        if theLine.length = 0 ∨ runes < 0 then
          Outcome.parserError "Error parsing file".data
        else resolveStage theLine god runes version

/-- The winning log of the spec's worked example (§8): version header first line,
victory phrase, a 3-rune line, an Okawaru deity line, and a
`(Minotaur Berserker)` build line with `Turns:`/`Time:` markers; padded to 13
lines. -/
def exWin : Str :=
  (" Dungeon Crawl Stone Soup version 0.23.1-rc1 (console) character file.\n" ++
   "\n" ++
   "Escaped with the Orb!\n" ++
   "... and 3 runes on 2019!\n" ++
   "Was the Champion of Okawaru.\n" ++
   "\n" ++
   "Hero the Conqueror (Minotaur Berserker)  Turns: 100, Time: 01:00:00\n" ++
   "x\nx\nx\nx\nx\nx").data

/-- `exWin` with the rune-count line moved after the build-description line. -/
def exRuneAfterBuild : Str :=
  (" Dungeon Crawl Stone Soup version 0.23.1-rc1 (console) character file.\n" ++
   "\n" ++
   "Escaped with the Orb!\n" ++
   "Was the Champion of Okawaru.\n" ++
   "\n" ++
   "Hero the Conqueror (Minotaur Berserker)  Turns: 100, Time: 01:00:00\n" ++
   "... and 3 runes on 2019!\n" ++
   "x\nx\nx\nx\nx\nx").data

/-- `exWin` with the victory line replaced, so the victory phrase is absent. -/
def exLoserLog : Str :=
  (" Dungeon Crawl Stone Soup version 0.23.1-rc1 (console) character file.\n" ++
   "\n" ++
   "Got out alive?\n" ++
   "... and 3 runes on 2019!\n" ++
   "Was the Champion of Okawaru.\n" ++
   "\n" ++
   "Hero the Conqueror (Minotaur Berserker)  Turns: 100, Time: 01:00:00\n" ++
   "x\nx\nx\nx\nx\nx").data

/-- `exWin` with the rune count written as a word, so `int` raises `ValueError`. -/
def exWordRunes : Str :=
  (" Dungeon Crawl Stone Soup version 0.23.1-rc1 (console) character file.\n" ++
   "\n" ++
   "Escaped with the Orb!\n" ++
   "... and three runes on 2019!\n" ++
   "Was the Champion of Okawaru.\n" ++
   "\n" ++
   "x\nx\nx\nx\nx\nx\nx").data

/-- An HTML-wrapped log whose header phrase first occurs at index 6 (before 21). -/
def exEarlyHeader : Str :=
  "<html> Dungeon Crawl Stone Soup version 0.23</pre>".data

/-- An HTML-wrapped log whose header phrase first occurs at index 22. -/
def exLateHeader : Str :=
  "<html>0123456789012345 Dungeon Crawl Stone Soup version 0.23 x</pre>tail".data

example : parse_one_morgue exWin
    = Outcome.winner "Mi".data "Be".data "okawaru".data 3 "0.23".data := by decide
example : parse_one_morgue exRuneAfterBuild
    = Outcome.parserError "Error parsing file".data := by decide
example : parse_one_morgue exLoserLog
    = Outcome.loser "This is not a winning run.".data := by decide
example : parse_one_morgue exWordRunes
    = Outcome.unknownError (intErrMsg "three".data) := by decide
example : strip_html exEarlyHeader = [] := by decide
example : strFind exLateHeader versionHeader = 22 := by decide

/-- Embeds `MorgueSpider._looks_crawl_related` (morgue_spider.py, lines 137-153):
the lower-cased URL must contain one of the terms `crawl`, `dcss`, `morgue`. -/
def looks_crawl_related (url : Str) : Bool :=
  let u := strToLower url
  pyIn "crawl".data u || pyIn "dcss".data u || pyIn "morgue".data u

/-- The per-URL filter of the `_spider` loop (line 117):
`url.endswith('.html') and self._looks_crawl_related(url)`. -/
def shouldExpand (url : Str) : Bool :=
  strEndsWith url ".html".data && looks_crawl_related url

/-- One round's link gathering (lines 115-123): the union of
`find_links_in_file(url)` over the frontier URLs passing `shouldExpand`.  The
network fetch `find_links_in_file` is the abstract parameter `links`. -/
def roundLinks (links : Str → Finset Str) (newUrls : Finset Str) : Finset Str :=
  (newUrls.filter (fun u => shouldExpand u = true)).biUnion links

/-- Embeds `MorgueSpider._spider` (morgue_spider.py, lines 94-135), with the file
writes (side effects) dropped: stop when the depth bound or the frontier is
exhausted, otherwise gather the links of the frontier, subtract the URLs already
seen, and recurse one level deeper.  The Python `depth` is an `int` tested with
`depth <= 0`; non-positive depths all behave like `0`, so depth is a `Nat` here. -/
def spiderAux (links : Str → Finset Str) : Finset Str → Finset Str → Nat → Finset Str
  | allUrls, _, 0 => allUrls
  | allUrls, newUrls, d + 1 =>
    if newUrls = ∅ then allUrls
    else
      let newer := roundLinks links newUrls \ allUrls
      spiderAux links (allUrls ∪ newer) newer d

/-- Embeds `MorgueSpider.spider` (line 92): start with the seed set as both the
cumulative set and the frontier. -/
def spider (links : Str → Finset Str) (seeds : Finset Str) (depth : Nat) : Finset Str :=
  spiderAux links seeds seeds depth

/-- The start-of-round states `(all_urls, new_urls)` of every `_spider` invocation
that passes the depth/frontier guard (one entry per executed round), in call
order. -/
def spiderRounds (links : Str → Finset Str) :
    Finset Str → Finset Str → Nat → List (Finset Str × Finset Str)
  | _, _, 0 => []
  | allUrls, newUrls, d + 1 =>
    if newUrls = ∅ then []
    else
      let newer := roundLinks links newUrls \ allUrls
      (allUrls, newUrls) :: spiderRounds links (allUrls ∪ newer) newer d

/-- A link extractor that finds no links on any page (used for concrete runs). -/
def exLinks : Str → Finset Str := fun _ => ∅

/-- A one-element seed set. -/
def exSeeds : Finset Str := {"a".data}

example : spider exLinks exSeeds 0 = exSeeds := by decide
example : spiderRounds exLinks exSeeds exSeeds 1 = [(exSeeds, exSeeds)] := by decide

/-- Embeds the winners-file line written by `WinningParser.parse`
(winning_parser.py, lines 107-108):
`'{0}  {1}{2}{3},{4},{5}\n'.format(url.strip(), spec, back, god_str, runes, ver)`
with `god_str = '^' + god if len(god) else ''`. -/
def write_winning_line (url sp bg god : Str) (runes : Int) (ver : Str) : Str :=
  pyStrip url ++ "  ".data ++ sp ++ bg ++
    (if god.length ≠ 0 then '^' :: god else []) ++
    [','] ++ intToStr runes ++ [','] ++ ver ++ ['\n']

/-- The tuple `(url, (species, background, god, num_runes, ver))` returned by the
two `read_winning_line` functions; `ver` is the result of the abstracted
`float` conversion. -/
structure WinRecord (α : Type) where
  url : Str
  species : Str
  background : Str
  god : Str
  runes : Int
  ver : α
deriving DecidableEq

namespace SearchWinners

/-- Embeds `SearchWinners.read_winning_line` (search_winners.py, lines 157-178).
`pyFloat` abstracts the Python `float(...)` conversion applied to the version
field (IEEE-754 parsing is outside the embedding; `none` is its `ValueError`).
A `none` result is any exception escaping the Python function (unpacking errors
of `split` results, or `int`/`float` conversion errors). -/
def read_winning_line {α : Type} (pyFloat : Str → Option α) (line : Str) :
    Option (WinRecord α) :=
  match pySplitWs (pyStrip line) with
  | [url, info] =>
    match splitChar ',' info with
    | [sbg, nr, ver] =>
      match (if pyIn ['^'] sbg = true then
               match splitChar '^' sbg with
               | [sb, god] => some (sb, god)
               | _ => none
             else some (sbg, ([] : Str))) with
      | none => none
      | some (sb, god) =>
        match pyInt nr with
        | none => none
        | some n =>
          match pyFloat ver with
          | none => none
          | some v => some ⟨url, sb.take 2, sb.drop 2, god, n, v⟩
    | _ => none
  | _ => none

end SearchWinners

namespace WinningCatalog

/-- Embeds `WinningCatalog.read_winning_line` (winning_catalog.py, lines 107-122),
whose body is identical to the `SearchWinners` one; `pyFloat` abstracts `float`
as there. -/
def read_winning_line {α : Type} (pyFloat : Str → Option α) (line : Str) :
    Option (WinRecord α) :=
  match pySplitWs (pyStrip line) with
  | [url, info] =>
    match splitChar ',' info with
    | [sbg, nr, ver] =>
      match (if pyIn ['^'] sbg = true then
               match splitChar '^' sbg with
               | [sb, god] => some (sb, god)
               | _ => none
             else some (sbg, ([] : Str))) with
      | none => none
      | some (sb, god) =>
        match pyInt nr with
        | none => none
        | some n =>
          match pyFloat ver with
          | none => none
          | some v => some ⟨url, sb.take 2, sb.drop 2, god, n, v⟩
    | _ => none
  | _ => none

end WinningCatalog

/-- A stand-in for Python `float` that keeps the raw version string; any
conversion can be substituted for it in the round-trip statements. -/
def keepStr : Str → Option Str := fun s => some s

example : write_winning_line "u".data "Mi".data "Be".data "okawaru".data 3 "0.23".data
    = "u  MiBe^okawaru,3,0.23\n".data := by decide
example : SearchWinners.read_winning_line keepStr "u  MiBe^okawaru,3,0.23\n".data
    = some ⟨"u".data, "Mi".data, "Be".data, "okawaru".data, 3, "0.23".data⟩ := by decide
example : SearchWinners.read_winning_line keepStr
    (write_winning_line "u".data "Mi".data "Be".data "a,b".data 3 "0.23".data) = none := by
  decide
example : SearchWinners.read_winning_line keepStr
    (write_winning_line "u".data "Mi".data "Be".data [] 3 "0.23".data)
    = some ⟨"u".data, "Mi".data, "Be".data, [], 3, "0.23".data⟩ := by decide


/-- The `split` result is never the empty list (Python `split` always returns at
least one piece). -/
theorem splitChar_ne_nil (sep : Char) (s : Str) : splitChar sep s ≠ [] := by
  cases s with
  | nil => simp [splitChar]
  | cons c t =>
    simp only [splitChar]
    split
    · simp
    · split <;> simp

/-- Taking the first 20 lines does not change the first line. -/
theorem headD_take_twenty (l : List Str) (d : Str) (h : l ≠ []) :
    (l.take 20).headD d = l.headD d := by
  cases l with
  | nil => exact absurd rfl h
  | cons a t => rfl

/-- C1: parsing the concrete log of the spec's worked example — version header
first line, victory phrase, `"... and 3 runes..."` line,
`"Was the Champion of Okawaru."` line, and a `(Minotaur Berserker)` build line
with `Turns:`/`Time:` markers — returns the winning record with species `"Mi"`,
background `"Be"`, deity `"okawaru"`, rune count `3` and version `"0.23"`. -/
theorem c1_worked_example :
    parse_one_morgue exWin
      = Outcome.winner "Mi".data "Be".data "okawaru".data 3 "0.23".data := by decide

/-- C4: any input whose unwrapped text has fewer than 13 lines is classified as a
`ParserError`, regardless of content. -/
theorem c4_short_text (txt : Str)
    (h : (splitChar '\n' (strip_html txt)).length < 13) :
    parse_one_morgue txt = Outcome.parserError "Invalid file, not long enough".data := by
  have h' : ((splitChar '\n' (strip_html txt)).take 20).length < 13 := by
    rw [List.length_take]; omega
  simp only [parse_one_morgue, if_pos h']

/-- Witness for `c4_short_text` at the empty text. -/
theorem c4_short_text_witness :
    (splitChar '\n' (strip_html [])).length < 13 ∧
    parse_one_morgue [] = Outcome.parserError "Invalid file, not long enough".data :=
  ⟨by decide, c4_short_text [] (by decide)⟩

/-- C7: a crawl of depth 0 returns exactly the seed set, for every link extractor
(so no page is fetched and no link is extracted) and every seed set. -/
theorem c7_depth_zero (links : Str → Finset Str) (seeds : Finset Str) :
    spider links seeds 0 = seeds := rfl

/-- C10: a concrete text that passes structural validation and contains the
victory phrase, on which classification is neither a `Loser` nor a `ParserError`:
the line `"... and three runes on 2019!"` makes the `int` conversion raise a
`ValueError` inside the scan loop, outside the guarded build-resolution block,
so the failure surfaces through the catch-all (`UnknownError`) path. -/
theorem c10_valueerror_unknown :
    13 ≤ (splitChar '\n' (strip_html exWordRunes)).length ∧
    strStartsWith ((splitChar '\n' (strip_html exWordRunes)).headD []) versionHeader = true ∧
    pyIn victoryPhrase (strip_html exWordRunes) = true ∧
    parse_one_morgue exWordRunes = Outcome.unknownError (intErrMsg "three".data) := by decide

/-- C5 counterexample: moving the rune-count line after the first
build-description line changes the outcome from the winning record to
`ParserError('Error parsing file')` — the scan loop breaks at the build line, so
a rune-count line after it is not extracted. -/
theorem c5_counterexample :
    parse_one_morgue exWin
      = Outcome.winner "Mi".data "Be".data "okawaru".data 3 "0.23".data ∧
    parse_one_morgue exRuneAfterBuild
      = Outcome.parserError "Error parsing file".data := by decide

/-- C6 counterexample: an HTML-marked text in which the header phrase occurs (at
index 6), yet `strip_html` returns the empty string rather than the non-empty
slice from the header to the end marker, because the found index is below 21. -/
theorem c6_counterexample :
    pyIn "<html>".data exEarlyHeader = true ∧
    pyIn versionHeader exEarlyHeader = true ∧
    strip_html exEarlyHeader = [] ∧
    takeUntilSub "</pre>".data
      (exEarlyHeader.drop (strFind exEarlyHeader versionHeader).toNat) ≠ [] := by decide

/-- C8 counterexample: in the very first crawl round the visited set and the
pending frontier are both the seed set, so their intersection is not empty. -/
theorem c8_counterexample :
    (exSeeds, exSeeds) ∈ spiderRounds exLinks exSeeds exSeeds 1 ∧
    exSeeds ∩ exSeeds ≠ ∅ := by decide

/-- C9 counterexample: for the record with deity `"a,b"` (a deity string
containing the format's comma delimiter), reading back the written winners-file
line fails (the `split(',')` unpacking raises), so the round-trip does not
recover the record. -/
theorem c9_counterexample :
    SearchWinners.read_winning_line keepStr
      (write_winning_line "u".data "Mi".data "Be".data "a,b".data 3 "0.23".data)
      = none := by decide

/-- C3: any text whose unwrapped form has at least 13 lines and whose first line
starts with the version header, but which lacks the victory phrase, is classified
`Loser` (never a `ParseError`); the loss is decided before any field extraction,
so no build information of such a text is ever parsed. -/
theorem c3_loser_never_parse_error (txt : Str)
    (h13 : 13 ≤ (splitChar '\n' (strip_html txt)).length)
    (hv : strStartsWith ((splitChar '\n' (strip_html txt)).headD []) versionHeader = true)
    (hw : pyIn victoryPhrase (strip_html txt) = false) :
    parse_one_morgue txt = Outcome.loser "This is not a winning run.".data := by
  have hne := splitChar_ne_nil '\n' (strip_html txt)
  have h1 : ¬ ((splitChar '\n' (strip_html txt)).take 20).length < 13 := by
    rw [List.length_take]; omega
  have h2 : ¬ (strStartsWith (((splitChar '\n' (strip_html txt)).take 20).headD [])
      versionHeader = false) := by
    rw [headD_take_twenty _ _ hne, hv]; simp
  simp only [parse_one_morgue, if_neg h1, if_neg h2, if_pos hw]

/-- Witness for `c3_loser_never_parse_error` on the concrete losing log. -/
theorem c3_loser_never_parse_error_witness :
    13 ≤ (splitChar '\n' (strip_html exLoserLog)).length ∧
    strStartsWith ((splitChar '\n' (strip_html exLoserLog)).headD []) versionHeader = true ∧
    pyIn victoryPhrase (strip_html exLoserLog) = false ∧
    parse_one_morgue exLoserLog = Outcome.loser "This is not a winning run.".data :=
  ⟨by decide, by decide, by decide,
    c3_loser_never_parse_error exLoserLog (by decide) (by decide) (by decide)⟩

/-- When the build-resolution stage returns a winning record, the species and
background have passed the final two-character check and the rune count is the
one the scan produced. -/
theorem resolveStage_winner_shape (theLine god : Str) (runes : Int) (version : Str)
    (sp bg gd : Str) (r : Int) (v : Str)
    (h : resolveStage theLine god runes version = Outcome.winner sp bg gd r v) :
    sp.length = 2 ∧ bg.length = 2 ∧ r = runes := by
  simp only [resolveStage] at h
  split at h
  · simp at h
  · split at h
    · simp at h
    · split at h
      · simp at h
      · rename_i hlen
        push_neg at hlen
        simp only [Outcome.winner.injEq] at h
        obtain ⟨hsp, hbg, _, hr, _⟩ := h
        exact ⟨hsp ▸ hlen.1, hbg ▸ hlen.2, hr.symm⟩

/-- C2: whenever `parse_one_morgue` returns a winning record, the species and
background strings are each exactly two characters long and the rune count is
non-negative. -/
theorem c2_winner_invariants (txt sp bg gd : Str) (r : Int) (v : Str)
    (h : parse_one_morgue txt = Outcome.winner sp bg gd r v) :
    sp.length = 2 ∧ bg.length = 2 ∧ 0 ≤ r := by
  simp only [parse_one_morgue] at h
  split at h
  · simp at h
  · split at h
    · simp at h
    · split at h
      · simp at h
      · split at h
        · simp at h
        · split at h
          · simp at h
          · split at h
            · simp at h
            · rename_i hguard
              push_neg at hguard
              obtain ⟨h2, h3, h4⟩ := resolveStage_winner_shape _ _ _ _ _ _ _ _ _ h
              exact ⟨h2, h3, by omega⟩

/-- Witness for `c2_winner_invariants` on the worked-example winning log. -/
theorem c2_winner_invariants_witness :
    parse_one_morgue exWin
      = Outcome.winner "Mi".data "Be".data "okawaru".data 3 "0.23".data ∧
    ("Mi".data.length = 2 ∧ "Be".data.length = 2 ∧ (0 : Int) ≤ 3) :=
  ⟨by decide,
    c2_winner_invariants exWin "Mi".data "Be".data "okawaru".data 3 "0.23".data (by decide)⟩

/-- Scanning a common prefix preserves any agreement of the scan on the suffixes. -/
theorem fieldScan_congr_suffix (rest1 rest2 : List Str)
    (H : ∀ g r, fieldScan rest1 g r = fieldScan rest2 g r) :
    ∀ (pre : List Str) (g : Str) (r : Int),
      fieldScan (pre ++ rest1) g r = fieldScan (pre ++ rest2) g r := by
  intro pre
  induction pre with
  | nil => exact H
  | cons l t ih =>
    intro g r
    simp only [List.cons_append, fieldScan]
    split
    · exact ih g r
    · split
      · split
        · rfl
        · split
          · rfl
          · exact ih g _
      · split
        · exact ih _ r
        · split
          · rfl
          · exact ih g r

/-- An adjacent rune-count line and deity line may be swapped without changing
the scan's result: the two branches update independent accumulators. -/
theorem fieldScan_swap_rune_god (a b : Str)
    (ha1 : isBlankLine a = false) (ha2 : isRuneLine a = true)
    (hb1 : isBlankLine b = false) (hb2 : isRuneLine b = false) (hb3 : isGodLine b = true)
    (post : List Str) : ∀ (g : Str) (r : Int),
    fieldScan (a :: b :: post) g r = fieldScan (b :: a :: post) g r := by
  intro g r
  cases hrt : runeToken a with
  | none => simp [fieldScan, ha1, ha2, hb1, hb2, hb3, hrt]
  | some t =>
    cases hpi : pyInt t with
    | none => simp [fieldScan, ha1, ha2, hb1, hb2, hb3, hrt, hpi]
    | some n => simp [fieldScan, ha1, ha2, hb1, hb2, hb3, hrt, hpi]

/-- The scan returns at the first build-description line, ignoring everything
after it. -/
theorem fieldScan_stop_at_build (l : Str)
    (h1 : isBlankLine l = false) (h2 : isRuneLine l = false)
    (h3 : isGodLine l = false) (h4 : isBuildLine l = true)
    (post : List Str) (g : Str) (r : Int) :
    fieldScan (l :: post) g r = Except.ok (g, r, l) := by
  simp [fieldScan, h1, h2, h3, h4]

/-- C5 (amended): before the first build-description line, a rune-count line and
a deity line may appear in either order without changing the scan's result; but
the scan stops entirely at the first build-description line, so lines after it —
in particular a later rune-count line — are never examined. -/
theorem c5_amended_scan_order (pre post : List Str) (a b l : Str) (g : Str) (r : Int)
    (ha1 : isBlankLine a = false) (ha2 : isRuneLine a = true)
    (hb1 : isBlankLine b = false) (hb2 : isRuneLine b = false) (hb3 : isGodLine b = true)
    (hl1 : isBlankLine l = false) (hl2 : isRuneLine l = false)
    (hl3 : isGodLine l = false) (hl4 : isBuildLine l = true) :
    fieldScan (pre ++ a :: b :: post) g r = fieldScan (pre ++ b :: a :: post) g r ∧
    fieldScan (l :: post) g r = Except.ok (g, r, l) :=
  ⟨fieldScan_congr_suffix _ _
      (fieldScan_swap_rune_god a b ha1 ha2 hb1 hb2 hb3 post) pre g r,
    fieldScan_stop_at_build l hl1 hl2 hl3 hl4 post g r⟩

/-- The rune-count line of the worked example. -/
def exRuneLine : Str := "... and 3 runes on 2019!".data

/-- The deity line of the worked example. -/
def exGodLine : Str := "Was the Champion of Okawaru.".data

/-- The build-description line of the worked example. -/
def exBuildLine : Str :=
  "Hero the Conqueror (Minotaur Berserker)  Turns: 100, Time: 01:00:00".data

/-- Witness for `c5_amended_scan_order` on the worked example's scan lines. -/
theorem c5_amended_scan_order_witness :
    (isBlankLine exRuneLine = false ∧ isRuneLine exRuneLine = true ∧
     isBlankLine exGodLine = false ∧ isRuneLine exGodLine = false ∧
     isGodLine exGodLine = true ∧
     isBlankLine exBuildLine = false ∧ isRuneLine exBuildLine = false ∧
     isGodLine exBuildLine = false ∧ isBuildLine exBuildLine = true) ∧
    (fieldScan ([] ++ exRuneLine :: exGodLine :: ["x".data]) [] (-1)
       = fieldScan ([] ++ exGodLine :: exRuneLine :: ["x".data]) [] (-1) ∧
     fieldScan (exBuildLine :: ["x".data]) [] (-1) = Except.ok ([], -1, exBuildLine)) :=
  ⟨by decide,
    c5_amended_scan_order [] ["x".data] exRuneLine exGodLine exBuildLine [] (-1)
      (by decide) (by decide) (by decide) (by decide) (by decide)
      (by decide) (by decide) (by decide) (by decide)⟩

/-- C6 (amended): on an HTML-marked text, `strip_html` returns the slice from the
header phrase to the `</pre>` end marker exactly when the header's first
occurrence is at index at least 21; when the header is absent or first occurs
before index 21, it returns the empty string. -/
theorem c6_amended_strip_html (txt : Str)
    (hm : (pyIn "<!DOCTYPE html>".data txt || pyIn "<html>".data txt) = true) :
    (21 ≤ strFind txt versionHeader →
       strip_html txt
         = takeUntilSub "</pre>".data (txt.drop (strFind txt versionHeader).toNat)) ∧
    (strFind txt versionHeader < 21 → strip_html txt = []) := by
  constructor
  · intro hge
    simp only [strip_html, if_pos hm]
    rw [if_neg]
    omega
  · intro hlt
    simp only [strip_html, if_pos hm]
    rw [if_pos hlt]

/-- Witness for `c6_amended_strip_html` on a log whose header sits at index 22. -/
theorem c6_amended_strip_html_witness :
    ((pyIn "<!DOCTYPE html>".data exLateHeader || pyIn "<html>".data exLateHeader) = true) ∧
    21 ≤ strFind exLateHeader versionHeader ∧
    strip_html exLateHeader
      = takeUntilSub "</pre>".data
          (exLateHeader.drop (strFind exLateHeader versionHeader).toNat) :=
  ⟨by decide, by decide, (c6_amended_strip_html exLateHeader (by decide)).1 (by decide)⟩

/-- C8 (amended): whenever the frontier is a subset of the visited set at the
start of a round — as holds for the initial call, where both are the seed set —
the same holds at the start of every later round: each round's pending frontier
is already contained in the visited set (it was added when discovered), rather
than disjoint from it. -/
theorem c8_amended_frontier_subset (links : Str → Finset Str)
    (allUrls newUrls : Finset Str) (depth : Nat) (p : Finset Str × Finset Str)
    (hsub : newUrls ⊆ allUrls) (hmem : p ∈ spiderRounds links allUrls newUrls depth) :
    p.2 ⊆ p.1 := by
  induction depth generalizing allUrls newUrls with
  | zero => simp [spiderRounds] at hmem
  | succ d ih =>
    simp only [spiderRounds] at hmem
    split at hmem
    · simp at hmem
    · rcases List.mem_cons.mp hmem with h | h
      · subst h; exact hsub
      · exact ih _ _ Finset.subset_union_right h

/-- Witness for `c8_amended_frontier_subset` on a one-round crawl from one seed. -/
theorem c8_amended_frontier_subset_witness :
    exSeeds ⊆ exSeeds ∧ (exSeeds, exSeeds) ∈ spiderRounds exLinks exSeeds exSeeds 1 ∧
    (exSeeds, exSeeds).2 ⊆ (exSeeds, exSeeds).1 :=
  ⟨by decide, by decide,
    c8_amended_frontier_subset exLinks exSeeds exSeeds 1 (exSeeds, exSeeds)
      (by decide) (by decide)⟩

/-- `dropWhile` is the identity on a list none of whose elements satisfy the
predicate. -/
theorem dropWhile_all_false (p : Char → Bool) (s : Str)
    (h : ∀ c ∈ s, p c = false) : s.dropWhile p = s := by
  cases s with
  | nil => rfl
  | cons c t =>
    rw [List.dropWhile_cons, if_neg]
    simp [h c (List.mem_cons_self c t)]

/-- `strip` is the identity on a whitespace-free string. -/
theorem pyStrip_eq_self (s : Str) (h : ∀ c ∈ s, c.isWhitespace = false) :
    pyStrip s = s := by
  unfold pyStrip
  rw [dropWhile_all_false _ _ h, dropWhile_all_false, List.reverse_reverse]
  intro c hc
  exact h c (List.mem_reverse.mp hc)

/-- Splitting an all-whitespace string on whitespace yields no tokens. -/
theorem wsSplitAux_all_ws (w : Str) (hw : ∀ c ∈ w, c.isWhitespace = true) :
    wsSplitAux w [] = [] := by
  induction w with
  | nil => rfl
  | cons c t ih =>
    simp only [wsSplitAux, hw c (List.mem_cons_self c t), if_true, List.isEmpty_nil]
    exact ih fun d hd => hw d (List.mem_cons_of_mem c hd)

/-- Trailing whitespace does not change a whitespace split. -/
theorem wsSplitAux_append_ws (w : Str) (hw : ∀ c ∈ w, c.isWhitespace = true) :
    ∀ (s acc : Str), wsSplitAux (s ++ w) acc = wsSplitAux s acc := by
  intro s
  induction s with
  | nil =>
    intro acc
    cases w with
    | nil => rfl
    | cons c t =>
      simp only [List.nil_append, wsSplitAux, hw c (List.mem_cons_self c t), if_true]
      have ht := wsSplitAux_all_ws t fun d hd => hw d (List.mem_cons_of_mem c hd)
      by_cases ha : acc.isEmpty
      · simp [ha, ht]
      · simp [ha, ht]
  | cons c t ih =>
    intro acc
    simp only [List.cons_append, wsSplitAux]
    by_cases hc : c.isWhitespace
    · by_cases ha : acc.isEmpty
      · simp [hc, ha, ih]
      · simp [hc, ha, ih]
    · simp [hc, ih]

/-- Leading whitespace does not change a whitespace split. -/
theorem wsSplitAux_dropWhile (s : Str) :
    wsSplitAux (s.dropWhile (·.isWhitespace)) [] = wsSplitAux s [] := by
  induction s with
  | nil => rfl
  | cons c t ih =>
    rw [List.dropWhile_cons]
    by_cases hc : c.isWhitespace
    · rw [if_pos hc, ih]
      simp [wsSplitAux, hc]
    · rw [if_neg hc]

/-- A whitespace split ignores stripping: `line.strip().split()` equals
`line.split()`. -/
theorem pySplitWs_strip (s : Str) : pySplitWs (pyStrip s) = pySplitWs s := by
  unfold pySplitWs pyStrip
  have hdecomp := List.takeWhile_append_dropWhile
    (p := (·.isWhitespace)) (l := (s.dropWhile (·.isWhitespace)).reverse)
  have hs1eq : s.dropWhile (·.isWhitespace)
      = ((s.dropWhile (·.isWhitespace)).reverse.dropWhile (·.isWhitespace)).reverse
        ++ ((s.dropWhile (·.isWhitespace)).reverse.takeWhile (·.isWhitespace)).reverse := by
    rw [← List.reverse_append, hdecomp, List.reverse_reverse]
  have hws : ∀ c ∈ ((s.dropWhile (·.isWhitespace)).reverse.takeWhile (·.isWhitespace)).reverse,
      c.isWhitespace = true := by
    intro c hc
    exact List.mem_takeWhile_imp (List.mem_reverse.mp hc)
  calc wsSplitAux ((s.dropWhile (·.isWhitespace)).reverse.dropWhile (·.isWhitespace)).reverse []
      = wsSplitAux (((s.dropWhile (·.isWhitespace)).reverse.dropWhile
          (·.isWhitespace)).reverse
          ++ ((s.dropWhile (·.isWhitespace)).reverse.takeWhile (·.isWhitespace)).reverse) [] :=
        (wsSplitAux_append_ws _ hws _ _).symm
    _ = wsSplitAux (s.dropWhile (·.isWhitespace)) [] := by rw [← hs1eq]
    _ = wsSplitAux s [] := wsSplitAux_dropWhile s

/-- A whitespace split consumes a whitespace-free prefix into the accumulator. -/
theorem wsSplitAux_skip_token (a : Str) (ha : ∀ c ∈ a, c.isWhitespace = false) :
    ∀ (r acc : Str), wsSplitAux (a ++ r) acc = wsSplitAux r (a.reverse ++ acc) := by
  induction a with
  | nil => intro r acc; rfl
  | cons c t ih =>
    intro r acc
    have hc : c.isWhitespace = false := ha c (List.mem_cons_self c t)
    have h1 : wsSplitAux ((c :: t) ++ r) acc = wsSplitAux (t ++ r) (c :: acc) := by
      simp [wsSplitAux, hc]
    rw [h1, ih (fun d hd => ha d (List.mem_cons_of_mem c hd)) r (c :: acc)]
    simp [List.append_assoc]

/-- Splitting `a ++ "  " ++ b ++ "\n"` on whitespace yields the two tokens
`a` and `b`, when both are non-empty and whitespace-free. -/
theorem pySplitWs_two_tokens (a b : Str) (hane : a ≠ []) (hbne : b ≠ [])
    (ha : ∀ c ∈ a, c.isWhitespace = false) (hb : ∀ c ∈ b, c.isWhitespace = false) :
    pySplitWs (a ++ ' ' :: ' ' :: (b ++ ['\n'])) = [a, b] := by
  unfold pySplitWs
  rw [wsSplitAux_skip_token a ha (' ' :: ' ' :: (b ++ ['\n'])) []]
  have hra : (a.reverse ++ []).isEmpty = false := by
    simp [List.isEmpty_iff, hane]
  simp only [wsSplitAux, Char.isWhitespace, if_true, hra]
  norm_num
  rw [wsSplitAux_append_ws ['\n'] (by intro c hc; simp at hc; simp [hc]) b []]
  rw [← List.append_nil b, wsSplitAux_skip_token b hb [] [], List.append_nil]
  simp [wsSplitAux, List.isEmpty_iff, hbne]

/-- Splitting on a character absent from the string yields the whole string. -/
theorem splitChar_not_mem (sep : Char) (s : Str) (h : sep ∉ s) :
    splitChar sep s = [s] := by
  induction s with
  | nil => rfl
  | cons c t ih =>
    have hc : (c == sep) = false := by
      simp only [beq_eq_false_iff_ne, ne_eq]
      exact fun hcc => h (hcc ▸ List.mem_cons_self c t)
    have ht := ih fun hm => h (List.mem_cons_of_mem c hm)
    simp only [splitChar, hc, Bool.false_eq_true, if_false, ht]

/-- Splitting at the first separator occurrence after a separator-free prefix. -/
theorem splitChar_append_cons (sep : Char) (x y : Str) (hx : sep ∉ x) :
    splitChar sep (x ++ sep :: y) = x :: splitChar sep y := by
  induction x with
  | nil =>
    simp only [List.nil_append, splitChar, beq_self_eq_true, if_true]
  | cons c t ih =>
    have hc : (c == sep) = false := by
      simp only [beq_eq_false_iff_ne, ne_eq]
      exact fun hcc => hx (hcc ▸ List.mem_cons_self c t)
    have ht := ih fun hm => hx (List.mem_cons_of_mem c hm)
    simp [splitChar, hc, ht]

/-- One-character containment agrees with list membership. -/
theorem pyIn_singleton (c : Char) (s : Str) : pyIn [c] s = true ↔ c ∈ s := by
  induction s with
  | nil => simp [pyIn, strStartsWith]
  | cons d t ih =>
    have h1 : pyIn [c] (d :: t) = (d == c || pyIn [c] t) := by
      simp [pyIn, strStartsWith]
    rw [h1, Bool.or_eq_true, beq_iff_eq, ih, List.mem_cons]
    exact or_congr eq_comm Iff.rfl

/-- Characters printed for decimal digits are digits: not whitespace, not a
format delimiter, not a sign, and they parse back to the same digit. -/
theorem digitChar_good (d : Nat) (h : d < 10) :
    (Nat.digitChar d).isWhitespace = false ∧ Nat.digitChar d ≠ ',' ∧
    Nat.digitChar d ≠ '^' ∧ Nat.digitChar d ≠ '-' ∧ Nat.digitChar d ≠ '+' ∧
    digitVal (Nat.digitChar d) = some d := by
  interval_cases d <;> exact ⟨rfl, by decide, by decide, by decide, by decide, by decide⟩

/-- The fuel-driven printer computes the reversed decimal digit string. -/
theorem natToStrAux_eq_digits (n fuel : Nat) (h : n ≤ fuel) :
    natToStrAux fuel n = (Nat.digits 10 n).reverse.map Nat.digitChar := by
  induction fuel generalizing n with
  | zero =>
    interval_cases n
    simp [natToStrAux]
  | succ f ih =>
    by_cases hn : n = 0
    · subst hn; simp [natToStrAux]
    · have hdiv : n / 10 ≤ f := by omega
      rw [natToStrAux, if_neg hn, ih (n / 10) hdiv,
        Nat.digits_def' (by norm_num : (1 : Nat) < 10) (Nat.pos_of_ne_zero hn)]
      simp

/-- The decimal printer in terms of `Nat.digits`. -/
theorem natToStr_eq_digits (n : Nat) (hn : n ≠ 0) :
    natToStr n = (Nat.digits 10 n).reverse.map Nat.digitChar := by
  rw [natToStr, if_neg hn, natToStrAux_eq_digits n (n + 1) (by omega)]

/-- The accumulating parser evaluates a mapped digit list as a left fold. -/
theorem parseDigitsAux_map (L : List Nat) (hL : ∀ d ∈ L, d < 10) :
    ∀ acc, parseDigitsAux (L.map Nat.digitChar) acc
      = some (L.foldl (fun a d => 10 * a + d) acc) := by
  induction L with
  | nil => intro acc; rfl
  | cons d t ih =>
    intro acc
    have hv := (digitChar_good d (hL d (List.mem_cons_self d t))).2.2.2.2.2
    simp only [List.map_cons, parseDigitsAux, hv]
    exact ih (fun x hx => hL x (List.mem_cons_of_mem d hx)) _

/-- Folding the reversed digit list of `n` reconstructs `n`. -/
theorem foldl_digits_reverse (n : Nat) :
    (Nat.digits 10 n).reverse.foldl (fun a d => 10 * a + d) 0 = n := by
  have h1 : ∀ L : List Nat, L.foldr (fun d a => 10 * a + d) 0 = Nat.ofDigits 10 L := by
    intro L
    induction L with
    | nil => simp [Nat.ofDigits]
    | cons d t ih =>
      simp only [List.foldr_cons, ih, Nat.ofDigits_cons]
      ring
  rw [List.foldl_reverse, h1, Nat.ofDigits_digits]

/-- All characters of a printed natural number are digit characters with the
listed properties. -/
theorem natToStr_chars (n : Nat) :
    ∀ c ∈ natToStr n, c.isWhitespace = false ∧ c ≠ ',' ∧ c ≠ '^' ∧
      c ≠ '-' ∧ c ≠ '+' := by
  by_cases hn : n = 0
  · subst hn; intro c hc; simp [natToStr] at hc; subst hc; exact ⟨rfl, by decide, by decide, by decide, by decide⟩
  · rw [natToStr_eq_digits n hn]
    intro c hc
    obtain ⟨d, hd, rfl⟩ := List.mem_map.mp hc
    have hdlt : d < 10 := Nat.digits_lt_base (by norm_num) (List.mem_reverse.mp hd)
    obtain ⟨g1, g2, g3, g4, g5, _⟩ := digitChar_good d hdlt
    exact ⟨g1, g2, g3, g4, g5⟩

/-- The printed natural number is never the empty string. -/
theorem natToStr_ne_nil (n : Nat) : natToStr n ≠ [] := by
  by_cases hn : n = 0
  · subst hn; simp [natToStr]
  · rw [natToStr_eq_digits n hn]
    simp [Nat.digits_ne_nil_iff_ne_zero.mpr hn]

/-- Parsing back a printed natural number recovers it (`int(str(n)) = n`). -/
theorem pyInt_natToStr (n : Nat) : pyInt (natToStr n) = some (n : Int) := by
  by_cases hn : n = 0
  · subst hn; decide
  · have hgood := natToStr_chars n
    have hstrip : pyStrip (natToStr n) = natToStr n :=
      pyStrip_eq_self _ fun c hc => (hgood c hc).1
    obtain ⟨c, t, hct⟩ := List.exists_cons_of_ne_nil (natToStr_ne_nil n)
    have hc := hgood c (by rw [hct]; exact List.mem_cons_self c t)
    have hlt : ∀ d ∈ (Nat.digits 10 n).reverse, d < 10 := fun d hd =>
      Nat.digits_lt_base (by norm_num) (List.mem_reverse.mp hd)
    have hmapne : ((Nat.digits 10 n).reverse.map Nat.digitChar).isEmpty = false := by
      simp [List.isEmpty_iff, Nat.digits_ne_nil_iff_ne_zero.mpr hn]
    have hparse : parseDigits (natToStr n) = some n := by
      rw [natToStr_eq_digits n hn]
      simp only [parseDigits, hmapne, Bool.false_eq_true, if_false]
      rw [parseDigitsAux_map _ hlt 0, foldl_digits_reverse]
    unfold pyInt
    rw [hstrip, hct]
    simp only [if_neg hc.2.2.2.1, if_neg hc.2.2.2.2]
    rw [← hct, hparse]
    rfl

/-- Parsing back a printed non-negative integer recovers it. -/
theorem pyInt_intToStr (i : Int) (h : 0 ≤ i) : pyInt (intToStr i) = some i := by
  rw [intToStr, if_neg (by omega), pyInt_natToStr, Int.toNat_of_nonneg h]

/-- All characters of a printed non-negative integer are digit characters. -/
theorem intToStr_chars (i : Int) (h : 0 ≤ i) :
    ∀ c ∈ intToStr i, c.isWhitespace = false ∧ c ≠ ',' ∧ c ≠ '^' ∧
      c ≠ '-' ∧ c ≠ '+' := by
  rw [intToStr, if_neg (by omega)]
  exact natToStr_chars i.toNat

/-- The printed non-negative integer is never empty. -/
theorem intToStr_ne_nil (i : Int) (h : 0 ≤ i) : intToStr i ≠ [] := by
  rw [intToStr, if_neg (by omega)]
  exact natToStr_ne_nil i.toNat

/-- The two duplicated readers are the same function. -/
theorem catalog_reader_eq_search_reader {α : Type} (pyFloat : Str → Option α) (line : Str) :
    WinningCatalog.read_winning_line pyFloat line
      = SearchWinners.read_winning_line pyFloat line := rfl

/-- C9 (amended): the winners-file line format round-trips: writing a record and
reading it back with either `read_winning_line` recovers the url, species,
background, deity (empty when the `^` segment was omitted), rune count, and the
version through the abstracted `float` conversion — provided the record's fields
avoid the format's delimiters: the url is a non-empty whitespace-free token, the
species, background and deity contain no whitespace, comma or caret, the version
contains no whitespace or comma, and the rune count is non-negative. -/
theorem c9_amended_roundtrip {α : Type} (pyFloat : Str → Option α)
    (url sp bg god ver : Str) (runes : Int) (v : α)
    (hu1 : url ≠ []) (hu2 : ∀ c ∈ url, c.isWhitespace = false)
    (hsp2 : sp.length = 2)
    (hsp : ∀ c ∈ sp, c.isWhitespace = false ∧ c ≠ ',' ∧ c ≠ '^')
    (hbg2 : bg.length = 2)
    (hbg : ∀ c ∈ bg, c.isWhitespace = false ∧ c ≠ ',' ∧ c ≠ '^')
    (hgod : ∀ c ∈ god, c.isWhitespace = false ∧ c ≠ ',' ∧ c ≠ '^')
    (hver : ∀ c ∈ ver, c.isWhitespace = false ∧ c ≠ ',')
    (hrunes : 0 ≤ runes)
    (hfloat : pyFloat ver = some v) :
    SearchWinners.read_winning_line pyFloat (write_winning_line url sp bg god runes ver)
      = some ⟨url, sp, bg, god, runes, v⟩ ∧
    WinningCatalog.read_winning_line pyFloat (write_winning_line url sp bg god runes ver)
      = some ⟨url, sp, bg, god, runes, v⟩ := by
  suffices h : SearchWinners.read_winning_line pyFloat
      (write_winning_line url sp bg god runes ver) = some ⟨url, sp, bg, god, runes, v⟩ by
    exact ⟨h, (catalog_reader_eq_search_reader pyFloat _).trans h⟩
  set seg : Str := if god.length ≠ 0 then '^' :: god else [] with hsegdef
  have hsegchars : ∀ c ∈ seg, c.isWhitespace = false ∧ c ≠ ',' := by
    intro c hc
    rw [hsegdef] at hc
    split at hc
    · rcases List.mem_cons.mp hc with rfl | hcg
      · exact ⟨rfl, by decide⟩
      · exact ⟨(hgod c hcg).1, (hgod c hcg).2.1⟩
    · simp at hc
  have hdig := intToStr_chars runes hrunes
  set info : Str := sp ++ (bg ++ (seg ++ ([','] ++ (intToStr runes ++ ([','] ++ ver)))))
    with hinfodef
  have hinfochars : ∀ c ∈ info, c.isWhitespace = false := by
    intro c hc
    rw [hinfodef] at hc
    simp only [List.mem_append, List.mem_cons, List.not_mem_nil, or_false] at hc
    rcases hc with h | h | h | h | h | h | h
    · exact (hsp c h).1
    · exact (hbg c h).1
    · exact (hsegchars c h).1
    · subst h; rfl
    · exact (hdig c h).1
    · subst h; rfl
    · exact (hver c h).1
  have hspne : sp ≠ [] := by
    intro h; rw [h] at hsp2; simp at hsp2
  have hinfone : info ≠ [] := by
    rw [hinfodef]
    intro h
    exact hspne (List.append_eq_nil.mp h).1
  have hwrite : write_winning_line url sp bg god runes ver
      = url ++ ' ' :: ' ' :: (info ++ ['\n']) := by
    rw [write_winning_line, pyStrip_eq_self url hu2, hinfodef, ← hsegdef]
    simp [List.append_assoc]
  have hsplit : pySplitWs (pyStrip (write_winning_line url sp bg god runes ver))
      = [url, info] := by
    rw [pySplitWs_strip, hwrite]
    exact pySplitWs_two_tokens url info hu1 hinfone hu2 hinfochars
  have hsbg_nocomma : ',' ∉ sp ++ (bg ++ seg) := by
    intro h
    simp only [List.mem_append] at h
    rcases h with h | h | h
    · exact (hsp ',' h).2.1 rfl
    · exact (hbg ',' h).2.1 rfl
    · exact (hsegchars ',' h).2 rfl
  have hdig_nocomma : ',' ∉ intToStr runes := by
    intro h; exact (hdig ',' h).2.1 rfl
  have hver_nocomma : ',' ∉ ver := by
    intro h; exact (hver ',' h).2 rfl
  have hassoc : info = (sp ++ (bg ++ seg)) ++ ',' :: (intToStr runes ++ ',' :: ver) := by
    rw [hinfodef]; simp [List.append_assoc]
  have hinfo_split : splitChar ',' info = [sp ++ (bg ++ seg), intToStr runes, ver] := by
    rw [hassoc, splitChar_append_cons ',' _ _ hsbg_nocomma,
      splitChar_append_cons ',' _ _ hdig_nocomma, splitChar_not_mem ',' ver hver_nocomma]
  by_cases hg : god = []
  · have hseg0 : seg = [] := by
      rw [hsegdef, if_neg]
      simp [hg]
    have hmem : '^' ∉ sp ++ (bg ++ seg) := by
      rw [hseg0]
      intro h
      simp only [List.append_nil, List.mem_append] at h
      rcases h with h | h
      · exact (hsp '^' h).2.2 rfl
      · exact (hbg '^' h).2.2 rfl
    have hcaret : pyIn ['^'] (sp ++ (bg ++ seg)) = false := by
      rw [← Bool.not_eq_true, pyIn_singleton]
      exact hmem
    subst hg
    simp only [SearchWinners.read_winning_line, hsplit, hinfo_split, hcaret,
      Bool.false_eq_true, if_false, pyInt_intToStr runes hrunes, hfloat]
    rw [hseg0, List.append_nil, ← hsp2, List.take_left, List.drop_left]
  · have hglen : god.length ≠ 0 := fun h => hg (List.length_eq_zero.mp h)
    have hseg1 : seg = '^' :: god := by
      rw [hsegdef, if_pos hglen]
    have hmem : '^' ∈ sp ++ (bg ++ seg) := by
      rw [hseg1]
      simp
    have hcaret : pyIn ['^'] (sp ++ (bg ++ seg)) = true := (pyIn_singleton _ _).mpr hmem
    have hsbcaret : '^' ∉ sp ++ bg := by
      intro h
      simp only [List.mem_append] at h
      rcases h with h | h
      · exact (hsp '^' h).2.2 rfl
      · exact (hbg '^' h).2.2 rfl
    have hgodcaret : '^' ∉ god := fun h => (hgod '^' h).2.2 rfl
    have hsbg_assoc : sp ++ (bg ++ seg) = (sp ++ bg) ++ '^' :: god := by
      rw [hseg1]
      simp [List.append_assoc]
    have hsplitcaret : splitChar '^' (sp ++ (bg ++ seg)) = [sp ++ bg, god] := by
      rw [hsbg_assoc, splitChar_append_cons '^' _ _ hsbcaret,
        splitChar_not_mem '^' god hgodcaret]
    simp only [SearchWinners.read_winning_line, hsplit, hinfo_split, hcaret, if_true,
      hsplitcaret, pyInt_intToStr runes hrunes, hfloat]
    rw [← hsp2, List.take_left, List.drop_left]

/-- Witness for `c9_amended_roundtrip` on the worked example's record. -/
theorem c9_amended_roundtrip_witness :
    ("u".data ≠ ([] : Str)) ∧ (∀ c ∈ "u".data, c.isWhitespace = false) ∧
    "Mi".data.length = 2 ∧
    (∀ c ∈ "Mi".data, c.isWhitespace = false ∧ c ≠ ',' ∧ c ≠ '^') ∧
    "Be".data.length = 2 ∧
    (∀ c ∈ "Be".data, c.isWhitespace = false ∧ c ≠ ',' ∧ c ≠ '^') ∧
    (∀ c ∈ "okawaru".data, c.isWhitespace = false ∧ c ≠ ',' ∧ c ≠ '^') ∧
    (∀ c ∈ "0.23".data, c.isWhitespace = false ∧ c ≠ ',') ∧
    (0 : Int) ≤ 3 ∧ keepStr "0.23".data = some "0.23".data ∧
    (SearchWinners.read_winning_line keepStr
        (write_winning_line "u".data "Mi".data "Be".data "okawaru".data 3 "0.23".data)
      = some ⟨"u".data, "Mi".data, "Be".data, "okawaru".data, 3, "0.23".data⟩ ∧
     WinningCatalog.read_winning_line keepStr
        (write_winning_line "u".data "Mi".data "Be".data "okawaru".data 3 "0.23".data)
      = some ⟨"u".data, "Mi".data, "Be".data, "okawaru".data, 3, "0.23".data⟩) :=
  ⟨by decide, by decide, by decide, by decide, by decide, by decide, by decide, by decide,
   by decide, by decide,
   c9_amended_roundtrip keepStr "u".data "Mi".data "Be".data "okawaru".data "0.23".data 3
     "0.23".data (by decide) (by decide) (by decide) (by decide) (by decide) (by decide)
     (by decide) (by decide) (by decide) (by decide)⟩
